import Mathlib

/-!
Verification development for the diesel-cte-ext CTE composer.

The rendering machinery of `src/cte.rs`, the builders of `src/builders.rs`
and the fragment wrapper of `src/macros.rs` are embedded shallowly: the
host library AST pass (`diesel::query_builder::AstPass`) becomes an
explicit buffer of SQL text and ordered bind values which the walk
functions thread through, and an embedded query fragment becomes a finite
sequence of the append-only operations `AstPass` exposes, possibly ending
in a failure.
-/

/-- Failure values mirroring the variants of `diesel::result::Error` that are
relevant here: the crate itself only ever constructs `QueryBuilderError`,
while embedded fragments may fail with any variant. -/
inductive DieselError where
  | queryBuilderError (msg : String)
  | databaseError (msg : String)
  | serializationError (msg : String)
  | notFound
  deriving DecidableEq

/-- Rendering backend, abstracting the query-builder side of
`diesel::backend::Backend`: an identifier quoting rule and the text pushed
for a bind-parameter placeholder. -/
structure Backend where
  quoteIdent : String → String
  bindMark : String

/-- Accumulated output of an AST walk: the SQL text and the ordered bind
values collected so far, mirroring the buffer behind `AstPass`. Bind values
are abstracted as naturals. -/
structure RenderState where
  sql : String
  binds : List Nat
  deriving DecidableEq

/-- Outcome of walking one node: the buffer after the walk together with the
failure, if any. On failure the buffer may hold partially written text,
exactly as the mutable `AstPass` buffer does in Rust. -/
abbrev RenderResult := RenderState × Option DieselError

/-- Fresh, empty output buffer. -/
def stEmpty : RenderState := ⟨"", []⟩

/-- Operation `AstPass::push_sql`: append literal SQL text. -/
def pushSql (st : RenderState) (s : String) : RenderState :=
  { st with sql := st.sql ++ s }

/-- Operation `AstPass::push_identifier`: append the backend-quoted form of
an identifier. -/
def pushIdentifier (b : Backend) (st : RenderState) (id : String) : RenderState :=
  pushSql st (b.quoteIdent id)

/-- Operation `AstPass::push_bind_param`: append a placeholder to the text
and the value to the ordered bind list. -/
def pushBindParam (b : Backend) (st : RenderState) (v : Nat) : RenderState :=
  { sql := st.sql ++ b.bindMark, binds := st.binds ++ [v] }

/-- Opaque embedded query fragment: a finite sequence of the append-only
`AstPass` operations its `walk_ast` performs, with `failWith` modelling a
fragment whose `walk_ast` returns `Err`. -/
inductive Frag where
  | sqlText (s : String)
  | identText (s : String)
  | bindVal (v : Nat)
  | seqFrag (a b : Frag)
  | failWith (e : DieselError)
  deriving DecidableEq

/-- Walk of an embedded fragment over the buffer, mirroring how a
`QueryFragment::walk_ast` implementation drives `AstPass`; a failure stops
the walk and surfaces the error (the `?` operator). -/
def walkFrag (b : Backend) : Frag → RenderState → RenderResult
  | .sqlText s, st => (pushSql st s, none)
  | .identText s, st => (pushIdentifier b st s, none)
  | .bindVal v, st => (pushBindParam b st v, none)
  | .failWith e, st => (st, some e)
  | .seqFrag f g, st =>
      match walkFrag b f st with
      | (st', none) => walkFrag b g st'
      | (st', some e) => (st', some e)

/-- Sequencing of walk steps, mirroring the `?` early return inside a
`walk_ast` body: a failure short-circuits, carrying the buffer as written
so far. -/
def seqRender (r : RenderResult) (k : RenderState → RenderResult) : RenderResult :=
  match r with
  | (st, none) => k st
  | (st, some e) => (st, some e)

/-- Runtime column names paired with erased compile-time schema metadata.
Modelled from the spec: `src/columns.rs` (declared by `lib.rs` as providing
`Columns`, re-exported as runtime column names paired with compile-time
schema metadata) is absent from the sources; the renderer in `cte.rs` reads
only its `names` field, an ordered sequence of borrowed strings. -/
structure Columns where
  names : List String
  deriving DecidableEq

/-- Error value built by `ensure_unique_columns` on a repeated name:
`Error::QueryBuilderError(format!("duplicate column name '{name}' in CTE"))`. -/
def dupColError (name : String) : DieselError :=
  .queryBuilderError ("duplicate column name \x27" ++ name ++ "\x27 in CTE")

/-- Loop body of `ensure_unique_columns`: `seen` holds the names already
inserted into the `BTreeSet`; the first name already present is reported. -/
def ensureUniqueGo (seen : List String) : List String → Except DieselError Unit
  | [] => .ok ()
  | name :: rest =>
      if name ∈ seen then .error (dupColError name)
      else ensureUniqueGo (name :: seen) rest

/-- Function `ensure_unique_columns` of `cte.rs`: scan the names left to
right, failing on the first name equal to an earlier one. -/
def ensure_unique_columns (names : List String) : Except DieselError Unit :=
  ensureUniqueGo [] names

/-- Loop of `push_identifiers` over the enumerated names: a comma separator
is pushed before every name whose index is positive. -/
def pushIdentLoop (b : Backend) : RenderState → Nat → List String → RenderState
  | st, _, [] => st
  | st, i, id :: rest =>
      let st := if 0 < i then pushSql st ", " else st
      pushIdentLoop b (pushIdentifier b st id) (i + 1) rest

/-- Function `push_identifiers` of `cte.rs`: emit nothing for an empty
list; otherwise check uniqueness, then emit a space, an opening
parenthesis, the quoted names comma-separated, and a closing
parenthesis. -/
def push_identifiers (b : Backend) (st : RenderState) (cols : Columns) : RenderResult :=
  let ids := cols.names
  if ids.isEmpty then (st, none)
  else
    match ensure_unique_columns ids with
    | .error e => (st, some e)
    | .ok _ =>
        let st := pushSql st " ("
        let st := pushIdentLoop b st 0 ids
        (pushSql st ")", none)

/-- Closed set of Diesel backends the crate can name: the two members of the
capability registry plus a representative non-member. -/
inductive BackendTy where
  | sqlite
  | pg
  | mysql
  deriving DecidableEq

/-- Marker trait `RecursiveBackend` of `cte.rs` as a membership predicate:
implemented for `Sqlite` and `Pg` only. -/
def RecursiveBackend : BackendTy → Bool
  | .sqlite => true
  | .pg => true
  | .mysql => false

/-- Struct `WithRecursive` of `cte.rs` (the phantom backend parameter is
erased; the backend is supplied at render time). -/
structure WithRecursive where
  cte_name : String
  columns : Columns
  seed : Frag
  step : Frag
  body : Frag
  deriving DecidableEq

/-- Method `WithRecursive::walk_ast` of `cte.rs`, line for line. -/
def WithRecursive.walk_ast (b : Backend) (q : WithRecursive) (st : RenderState) : RenderResult :=
  let st := pushSql st "WITH RECURSIVE "
  let st := pushIdentifier b st q.cte_name
  seqRender (push_identifiers b st q.columns) fun st =>
  let st := pushSql st " AS ("
  seqRender (walkFrag b q.seed st) fun st =>
  let st := pushSql st " UNION ALL "
  seqRender (walkFrag b q.step st) fun st =>
  let st := pushSql st ") "
  walkFrag b q.body st

/-- Struct `WithCte` of `cte.rs`. -/
structure WithCte where
  cte_name : String
  columns : Columns
  cte : Frag
  body : Frag
  deriving DecidableEq

/-- Method `WithCte::walk_ast` of `cte.rs`, line for line. -/
def WithCte.walk_ast (b : Backend) (q : WithCte) (st : RenderState) : RenderResult :=
  let st := pushSql st "WITH "
  let st := pushIdentifier b st q.cte_name
  seqRender (push_identifiers b st q.columns) fun st =>
  let st := pushSql st " AS ("
  seqRender (walkFrag b q.cte st) fun st =>
  let st := pushSql st ") "
  walkFrag b q.body st

/-- Render call made by the external collaborator (the query serialisation
of the host library): walk the entity over a fresh buffer and hand the
caller the finished text with its ordered binds, or the failure alone —
the partially written buffer is dropped on failure. -/
def WithRecursive.render (b : Backend) (q : WithRecursive) :
    Except DieselError (String × List Nat) :=
  match q.walk_ast b stEmpty with
  | (st, none) => .ok (st.sql, st.binds)
  | (_, some e) => .error e

/-- Render call for the non-recursive entity; see `WithRecursive.render`. -/
def WithCte.render (b : Backend) (q : WithCte) :
    Except DieselError (String × List Nat) :=
  match q.walk_ast b stEmpty with
  | (st, none) => .ok (st.sql, st.binds)
  | (_, some e) => .error e

/-- Render call for a bare fragment, for comparison with the wrapper. -/
def Frag.render (b : Backend) (f : Frag) : Except DieselError (String × List Nat) :=
  match walkFrag b f stEmpty with
  | (st, none) => .ok (st.sql, st.binds)
  | (_, some e) => .error e

/-- Struct `QueryPart` of `macros.rs`: the single-field fragment wrapper. -/
structure QueryPart where
  inner : Frag
  deriving DecidableEq

/-- Constructor `QueryPart::new`. -/
def QueryPart.new (expr : Frag) : QueryPart := ⟨expr⟩

/-- Method `QueryPart::walk_ast` of `macros.rs`: forward to the inner
fragment unchanged. -/
def QueryPart.walk_ast (b : Backend) (q : QueryPart) (st : RenderState) : RenderResult :=
  walkFrag b q.inner st

/-- Render call for a wrapped fragment; see `WithRecursive.render`. -/
def QueryPart.render (b : Backend) (q : QueryPart) : Except DieselError (String × List Nat) :=
  match q.walk_ast b stEmpty with
  | (st, none) => .ok (st.sql, st.binds)
  | (_, some e) => .error e

/-- Struct `RecursiveParts` of `builders.rs`. -/
structure RecursiveParts where
  seed : Frag
  step : Frag
  body : Frag
  deriving DecidableEq

/-- Constructor `RecursiveParts::new`. -/
def RecursiveParts.new (seed step body : Frag) : RecursiveParts :=
  ⟨seed, step, body⟩

/-- Builder `with_recursive` of `builders.rs`: the bound
`DB: RecursiveBackend` becomes an explicit membership hypothesis, so the
entity cannot be built for a backend outside the registry. -/
def with_recursive (db : BackendTy) (_h : RecursiveBackend db = true)
    (cte_name : String) (columns : Columns) (parts : RecursiveParts) : WithRecursive :=
  { cte_name := cte_name, columns := columns,
    seed := parts.seed, step := parts.step, body := parts.body }

/-- Builder `with_cte` of `builders.rs`: any backend is allowed
(`DB: Backend` only). -/
def with_cte (_db : BackendTy) (cte_name : String) (columns : Columns)
    (cte : Frag) (body : Frag) : WithCte :=
  { cte_name := cte_name, columns := columns, cte := cte, body := body }

/-- Constant `HAS_STATIC_QUERY_ID` produced for `WithRecursive` by the
`impl_cte_traits!` macro of `cte.rs`: literally `true`, with the flags of
the embedded fragment types (the arguments) never consulted. -/
def WithRecursive.hasStaticQueryId (_seedHas _stepHas _bodyHas : Bool) : Bool :=
  true

/-- Constant `HAS_STATIC_QUERY_ID` produced for `WithCte` by
`impl_cte_traits!`: literally `true`. -/
def WithCte.hasStaticQueryId (_cteHas _bodyHas : Bool) : Bool :=
  true

/-- Constant `HAS_STATIC_QUERY_ID` of `QueryPart` in `macros.rs`: forwarded
from the wrapped type. -/
def QueryPart.hasStaticQueryId (innerHas : Bool) : Bool :=
  innerHas

/-- Associated type `QueryId = Self` produced for `WithRecursive` by
`impl_cte_traits!`: the cache identity of a value is its own type — a
function of the type alone, never of the fragment values held. -/
def WithRecursive.queryIdTy (selfTy : String) (_q : WithRecursive) : String :=
  selfTy

/-- Associated type `QueryId = Self` produced for `WithCte` by
`impl_cte_traits!`. -/
def WithCte.queryIdTy (selfTy : String) (_q : WithCte) : String :=
  selfTy

/-- Associated type `QueryId = T::QueryId` of `QueryPart` in `macros.rs`:
the identity of the wrapped type, unchanged. -/
def QueryPart.queryIdTy (innerTy : String) (_q : QueryPart) : String :=
  innerTy

/-- SQL result schemas, abstracted. -/
inductive SqlTy where
  | integer
  | text
  | nullable (t : SqlTy)
  | tuple (a b : SqlTy)
  deriving DecidableEq

/-- Associated type `SqlType = <Body as Query>::SqlType` produced for
`WithRecursive` by `impl_cte_traits!`: only the body schema is consulted. -/
def WithRecursive.sqlType (_seedTy _stepTy bodyTy : SqlTy) : SqlTy :=
  bodyTy

/-- Associated type `SqlType = <Body as Query>::SqlType` produced for
`WithCte` by `impl_cte_traits!`. -/
def WithCte.sqlType (_cteTy bodyTy : SqlTy) : SqlTy :=
  bodyTy

/-- Failure values syntactically present in a fragment: the only errors its
walk can ever surface. -/
def fragErrors : Frag → List DieselError
  | .sqlText _ => []
  | .identText _ => []
  | .bindVal _ => []
  | .failWith e => [e]
  | .seqFrag f g => fragErrors f ++ fragErrors g

/-- Double every embedded double quote, as the SQLite and PostgreSQL query
builders do before wrapping an identifier in double quotes. -/
def escapeDoubleQuotes (s : String) : String :=
  ⟨s.data.foldr (fun c acc => if c = '"' then '"' :: '"' :: acc else c :: acc) []⟩

/-- ANSI-quoting backend (the SQLite and PostgreSQL query builders):
identifiers wrapped in double quotes with embedded quotes doubled. -/
def ansiBackend : Backend :=
  { quoteIdent := fun s => "\"" ++ escapeDoubleQuotes s ++ "\"",
    bindMark := "?" }

/-- Spec-side description of the column-clause body: each name in input
order through the backend quoting rule, separated by a comma and a
space. -/
def joinQuoted (b : Backend) : List String → String
  | [] => ""
  | [c] => b.quoteIdent c
  | c :: c2 :: rest => b.quoteIdent c ++ ", " ++ joinQuoted b (c2 :: rest)

/-- Spec-side description of the whole column clause: absent for an empty
list, otherwise a space and the parenthesized quoted names. -/
def colClause (b : Backend) (cols : List String) : String :=
  if cols.isEmpty then "" else " (" ++ joinQuoted b cols ++ ")"

/-- Output of a fragment walked over a fresh buffer: its own rendering. -/
def fragOut (b : Backend) (f : Frag) : RenderResult :=
  walkFrag b f stEmpty

/-! Helper lemmas about the buffer operations. -/

theorem pushSql_pushSql (st : RenderState) (s t : String) :
    pushSql (pushSql st s) t = pushSql st (s ++ t) := by
  simp [pushSql, String.append_assoc]

theorem pushSql_empty (st : RenderState) : pushSql st "" = st := by
  simp [pushSql, String.append_empty]

theorem walkFrag_shift (b : Backend) (f : Frag) :
    ∀ st : RenderState,
      walkFrag b f st =
        ({ sql := st.sql ++ (fragOut b f).1.sql,
           binds := st.binds ++ (fragOut b f).1.binds }, (fragOut b f).2) := by
  induction f with
  | sqlText s =>
      intro st
      simp [walkFrag, fragOut, stEmpty, pushSql, String.empty_append]
  | identText s =>
      intro st
      simp [walkFrag, fragOut, stEmpty, pushSql, pushIdentifier, String.empty_append]
  | bindVal v =>
      intro st
      simp [walkFrag, fragOut, stEmpty, pushBindParam, String.empty_append]
  | failWith e =>
      intro st
      simp [walkFrag, fragOut, stEmpty, String.append_empty]
  | seqFrag f g ihf ihg =>
      intro st
      rcases hA : fragOut b f with ⟨stA, eA⟩
      have hA' : walkFrag b f stEmpty = (stA, eA) := hA
      have hf : walkFrag b f st =
          ({ sql := st.sql ++ stA.sql, binds := st.binds ++ stA.binds }, eA) := by
        rw [ihf st, hA]
      cases eA with
      | some e =>
          have hC : fragOut b (Frag.seqFrag f g) = (stA, some e) := by
            simp only [fragOut, walkFrag, hA']
          rw [hC]
          simp only [walkFrag, hf]
      | none =>
          rcases hB : fragOut b g with ⟨stB, eB⟩
          have hgA : walkFrag b g stA =
              ({ sql := stA.sql ++ stB.sql, binds := stA.binds ++ stB.binds }, eB) := by
            rw [ihg stA, hB]
          have hC : fragOut b (Frag.seqFrag f g) =
              ({ sql := stA.sql ++ stB.sql, binds := stA.binds ++ stB.binds }, eB) := by
            simp only [fragOut, walkFrag, hA', hgA]
          rw [hC]
          have hg : walkFrag b g ({ sql := st.sql ++ stA.sql, binds := st.binds ++ stA.binds }) =
              ({ sql := st.sql ++ stA.sql ++ stB.sql,
                 binds := st.binds ++ stA.binds ++ stB.binds }, eB) := by
            rw [ihg _, hB]
          simp only [walkFrag, hf, hg, String.append_assoc, List.append_assoc]

/-! Helper lemmas about the column clause. -/

/-- Text contributed by the loop for every name after the first: a comma
separator and the quoted name. -/
def joinTail (b : Backend) : List String → String
  | [] => ""
  | c :: rest => ", " ++ b.quoteIdent c ++ joinTail b rest

theorem pushIdentLoop_tail (b : Backend) (ids : List String) :
    ∀ (st : RenderState) (i : Nat),
      pushIdentLoop b st (i + 1) ids = pushSql st (joinTail b ids) := by
  induction ids with
  | nil =>
      intro st i
      simp [pushIdentLoop, joinTail, pushSql_empty]
  | cons c rest ih =>
      intro st i
      simp only [pushIdentLoop, if_pos (Nat.zero_lt_succ i), pushIdentifier]
      rw [ih, pushSql_pushSql, pushSql_pushSql, joinTail, String.append_assoc]

theorem joinQuoted_cons (b : Backend) (rest : List String) :
    ∀ c, joinQuoted b (c :: rest) = b.quoteIdent c ++ joinTail b rest := by
  induction rest with
  | nil =>
      intro c
      simp [joinQuoted, joinTail, String.append_empty]
  | cons c2 r ih =>
      intro c
      simp only [joinQuoted, joinTail]
      rw [ih c2]
      simp [String.append_assoc]

theorem pushIdentLoop_join (b : Backend) (ids : List String) (st : RenderState)
    (h : ids ≠ []) :
    pushIdentLoop b st 0 ids = pushSql st (joinQuoted b ids) := by
  cases ids with
  | nil => exact absurd rfl h
  | cons c rest =>
      simp only [pushIdentLoop, if_neg (lt_irrefl 0), pushIdentifier]
      rw [pushIdentLoop_tail, pushSql_pushSql, joinQuoted_cons]

/-! Helper lemmas about the uniqueness scan. -/

theorem ensureUniqueGo_ok_iff (ns : List String) :
    ∀ seen, ensureUniqueGo seen ns = .ok () ↔ (ns.Nodup ∧ ∀ n ∈ ns, n ∉ seen) := by
  induction ns with
  | nil =>
      intro seen
      simp [ensureUniqueGo]
  | cons n rest ih =>
      intro seen
      by_cases hm : n ∈ seen
      · simp [ensureUniqueGo, hm]
      · have hstep : ensureUniqueGo seen (n :: rest) = ensureUniqueGo (n :: seen) rest := by
          simp [ensureUniqueGo, hm]
        rw [hstep, ih (n :: seen)]
        simp only [List.nodup_cons, List.mem_cons]
        constructor
        · rintro ⟨hnd, hdisj⟩
          refine ⟨⟨fun hmem => hdisj n hmem (Or.inl rfl), hnd⟩, ?_⟩
          rintro m (rfl | hmr)
          · exact hm
          · exact fun hs => hdisj m hmr (Or.inr hs)
        · rintro ⟨⟨hnr, hnd⟩, hdisj⟩
          refine ⟨hnd, fun m hmr => ?_⟩
          rintro (rfl | hs)
          · exact hnr hmr
          · exact hdisj m (Or.inr hmr) hs

theorem ensure_unique_columns_ok_iff (ns : List String) :
    ensure_unique_columns ns = .ok () ↔ ns.Nodup := by
  rw [ensure_unique_columns, ensureUniqueGo_ok_iff]
  simp

theorem ensureUniqueGo_err (ns : List String) :
    ∀ seen e, ensureUniqueGo seen ns = .error e →
      ∃ pre d post, ns = pre ++ d :: post ∧ pre.Nodup ∧ (∀ n ∈ pre, n ∉ seen) ∧
        (d ∈ seen ∨ d ∈ pre) ∧ e = dupColError d := by
  induction ns with
  | nil =>
      intro seen e h
      simp [ensureUniqueGo] at h
  | cons n rest ih =>
      intro seen e h
      by_cases hm : n ∈ seen
      · have he : e = dupColError n := by
          simp [ensureUniqueGo, hm] at h
          exact h.symm
        exact ⟨[], n, rest, rfl, List.nodup_nil, by simp, Or.inl hm, he⟩
      · have h' : ensureUniqueGo (n :: seen) rest = .error e := by
          simpa [ensureUniqueGo, hm] using h
        obtain ⟨pre, d, post, hns, hnd, hdisj, hd, he⟩ := ih (n :: seen) e h'
        refine ⟨n :: pre, d, post, by rw [hns, List.cons_append], ?_, ?_, ?_, he⟩
        · exact List.nodup_cons.mpr
            ⟨fun hn => hdisj n hn (List.mem_cons_self n seen), hnd⟩
        · intro m hmem
          rcases List.mem_cons.mp hmem with rfl | hmp
          · exact hm
          · exact fun hs => hdisj m hmp (List.mem_cons_of_mem _ hs)
        · rcases hd with hs | hp
          · rcases List.mem_cons.mp hs with rfl | hs2
            · exact Or.inr (List.mem_cons_self _ _)
            · exact Or.inl hs2
          · exact Or.inr (List.mem_cons_of_mem _ hp)

theorem ensureUniqueGo_err_of (pre : List String) :
    ∀ seen d post, pre.Nodup → (∀ n ∈ pre, n ∉ seen) → (d ∈ seen ∨ d ∈ pre) →
      ensureUniqueGo seen (pre ++ d :: post) = .error (dupColError d) := by
  induction pre with
  | nil =>
      intro seen d post _ _ hd
      rcases hd with hs | hp
      · simp [ensureUniqueGo, hs]
      · simp at hp
  | cons p pre ih =>
      intro seen d post hnd hdisj hd
      have hp : p ∉ seen := hdisj p (List.mem_cons_self _ _)
      rw [List.cons_append]
      have hstep : ensureUniqueGo seen (p :: (pre ++ d :: post)) =
          ensureUniqueGo (p :: seen) (pre ++ d :: post) := by
        simp [ensureUniqueGo, hp]
      rw [hstep]
      apply ih
      · exact (List.nodup_cons.mp hnd).2
      · intro n hn
        intro hmem
        rcases List.mem_cons.mp hmem with rfl | hs
        · exact (List.nodup_cons.mp hnd).1 hn
        · exact hdisj n (List.mem_cons_of_mem _ hn) hs
      · rcases hd with hs | hpp
        · exact Or.inl (List.mem_cons_of_mem _ hs)
        · rcases List.mem_cons.mp hpp with rfl | hin
          · exact Or.inl (List.mem_cons_self _ _)
          · exact Or.inr hin

/-! Helper lemmas about `push_identifiers`. -/

theorem push_identifiers_ok (b : Backend) (st : RenderState) (cols : List String)
    (h : cols = [] ∨ cols.Nodup) :
    push_identifiers b st ⟨cols⟩ = (pushSql st (colClause b cols), none) := by
  rcases h with rfl | hnd
  · simp [push_identifiers, colClause, pushSql_empty]
  · cases cols with
    | nil => simp [push_identifiers, colClause, pushSql_empty]
    | cons c rest =>
        have hok : ensure_unique_columns (c :: rest) = .ok () := by
          rw [ensure_unique_columns_ok_iff]
          exact hnd
        simp only [push_identifiers, List.isEmpty_cons, hok]
        rw [pushIdentLoop_join b (c :: rest) _ (by simp), pushSql_pushSql, pushSql_pushSql]
        simp [colClause, String.append_assoc]

theorem push_identifiers_err (b : Backend) (st : RenderState) (cols : List String)
    (e : DieselError) (h : ensure_unique_columns cols = .error e) :
    push_identifiers b st ⟨cols⟩ = (st, some e) := by
  cases cols with
  | nil => simp [ensure_unique_columns, ensureUniqueGo] at h
  | cons c rest => simp [push_identifiers, h]

theorem push_identifiers_ok_inv (b : Backend) (st st' : RenderState) (cols : List String)
    (h : push_identifiers b st ⟨cols⟩ = (st', none)) :
    (cols = [] ∨ cols.Nodup) ∧ st' = pushSql st (colClause b cols) := by
  cases cols with
  | nil =>
      refine ⟨Or.inl rfl, ?_⟩
      simp only [push_identifiers, List.isEmpty_nil, if_pos] at h
      have hst : st = st' := congrArg Prod.fst h
      rw [← hst]
      simp [colClause, pushSql_empty]
  | cons c rest =>
      cases hE : ensure_unique_columns (c :: rest) with
      | error e =>
          rw [push_identifiers_err b st _ e hE] at h
          exact absurd (congrArg Prod.snd h) (by simp)
      | ok u =>
          cases u
          have hnd : (c :: rest).Nodup := (ensure_unique_columns_ok_iff _).mp hE
          have := push_identifiers_ok b st (c :: rest) (Or.inr hnd)
          rw [this] at h
          exact ⟨Or.inr hnd, (congrArg Prod.fst h).symm⟩

theorem push_identifiers_err_inv (b : Backend) (st st' : RenderState) (cols : List String)
    (e : DieselError) (h : push_identifiers b st ⟨cols⟩ = (st', some e)) :
    ensure_unique_columns cols = .error e ∧ st' = st := by
  cases cols with
  | nil =>
      simp only [push_identifiers, List.isEmpty_nil, if_pos] at h
      exact absurd (congrArg Prod.snd h) (by simp)
  | cons c rest =>
      cases hE : ensure_unique_columns (c :: rest) with
      | error e2 =>
          rw [push_identifiers_err b st _ e2 hE] at h
          have h2 : e2 = e := by simpa using congrArg Prod.snd h
          subst h2
          exact ⟨rfl, (congrArg Prod.fst h).symm⟩
      | ok u =>
          cases u
          have hnd : (c :: rest).Nodup := (ensure_unique_columns_ok_iff _).mp hE
          rw [push_identifiers_ok b st (c :: rest) (Or.inr hnd)] at h
          exact absurd (congrArg Prod.snd h) (by simp)

theorem push_identifiers_ok_cols (b : Backend) (st : RenderState) (cols : Columns)
    (h : cols.names = [] ∨ cols.names.Nodup) :
    push_identifiers b st cols = (pushSql st (colClause b cols.names), none) := by
  cases cols with
  | mk names => exact push_identifiers_ok b st names h

theorem push_identifiers_err_cols (b : Backend) (st : RenderState) (cols : Columns)
    (e : DieselError) (h : ensure_unique_columns cols.names = .error e) :
    push_identifiers b st cols = (st, some e) := by
  cases cols with
  | mk names => exact push_identifiers_err b st names e h

theorem push_identifiers_ok_inv_cols (b : Backend) (st st' : RenderState) (cols : Columns)
    (h : push_identifiers b st cols = (st', none)) :
    (cols.names = [] ∨ cols.names.Nodup) ∧ st' = pushSql st (colClause b cols.names) := by
  cases cols with
  | mk names => exact push_identifiers_ok_inv b st st' names h

theorem push_identifiers_err_inv_cols (b : Backend) (st st' : RenderState) (cols : Columns)
    (e : DieselError) (h : push_identifiers b st cols = (st', some e)) :
    ensure_unique_columns cols.names = .error e ∧ st' = st := by
  cases cols with
  | mk names => exact push_identifiers_err_inv b st st' names e h

/-! Characterization of the two walks. -/

theorem withRecursive_walk_ok (b : Backend) (q : WithRecursive) (o1 o2 o3 : RenderState)
    (hc : q.columns.names = [] ∨ q.columns.names.Nodup)
    (h1 : fragOut b q.seed = (o1, none))
    (h2 : fragOut b q.step = (o2, none))
    (h3 : fragOut b q.body = (o3, none)) :
    q.walk_ast b stEmpty =
      ({ sql := "WITH RECURSIVE " ++ b.quoteIdent q.cte_name ++ colClause b q.columns.names ++
           " AS (" ++ o1.sql ++ " UNION ALL " ++ o2.sql ++ ") " ++ o3.sql,
         binds := o1.binds ++ o2.binds ++ o3.binds }, none) := by
  have hseed := walkFrag_shift b q.seed
  have hstep := walkFrag_shift b q.step
  have hbody := walkFrag_shift b q.body
  simp only [WithRecursive.walk_ast, push_identifiers_ok_cols b _ q.columns hc, seqRender,
    hseed, hstep, hbody, h1, h2, h3]
  simp [pushSql, pushIdentifier, stEmpty, String.empty_append, String.append_assoc,
    List.append_assoc]

theorem withRecursive_render_ok (b : Backend) (q : WithRecursive) (o1 o2 o3 : RenderState)
    (hc : q.columns.names = [] ∨ q.columns.names.Nodup)
    (h1 : fragOut b q.seed = (o1, none))
    (h2 : fragOut b q.step = (o2, none))
    (h3 : fragOut b q.body = (o3, none)) :
    q.render b =
      .ok ("WITH RECURSIVE " ++ b.quoteIdent q.cte_name ++ colClause b q.columns.names ++
            " AS (" ++ o1.sql ++ " UNION ALL " ++ o2.sql ++ ") " ++ o3.sql,
           o1.binds ++ o2.binds ++ o3.binds) := by
  simp only [WithRecursive.render, withRecursive_walk_ok b q o1 o2 o3 hc h1 h2 h3]

theorem withCte_walk_ok (b : Backend) (q : WithCte) (o1 o2 : RenderState)
    (hc : q.columns.names = [] ∨ q.columns.names.Nodup)
    (h1 : fragOut b q.cte = (o1, none))
    (h2 : fragOut b q.body = (o2, none)) :
    q.walk_ast b stEmpty =
      ({ sql := "WITH " ++ b.quoteIdent q.cte_name ++ colClause b q.columns.names ++
           " AS (" ++ o1.sql ++ ") " ++ o2.sql,
         binds := o1.binds ++ o2.binds }, none) := by
  have hcte := walkFrag_shift b q.cte
  have hbody := walkFrag_shift b q.body
  simp only [WithCte.walk_ast, push_identifiers_ok_cols b _ q.columns hc, seqRender,
    hcte, hbody, h1, h2]
  simp [pushSql, pushIdentifier, stEmpty, String.empty_append, String.append_assoc,
    List.append_assoc]

theorem withCte_render_ok (b : Backend) (q : WithCte) (o1 o2 : RenderState)
    (hc : q.columns.names = [] ∨ q.columns.names.Nodup)
    (h1 : fragOut b q.cte = (o1, none))
    (h2 : fragOut b q.body = (o2, none)) :
    q.render b =
      .ok ("WITH " ++ b.quoteIdent q.cte_name ++ colClause b q.columns.names ++
            " AS (" ++ o1.sql ++ ") " ++ o2.sql,
           o1.binds ++ o2.binds) := by
  simp only [WithCte.render, withCte_walk_ok b q o1 o2 hc h1 h2]

/-! Failure cases of the two walks. -/

theorem withRecursive_render_err_cols (b : Backend) (q : WithRecursive) (e : DieselError)
    (hE : ensure_unique_columns q.columns.names = .error e) :
    q.render b = .error e := by
  simp only [WithRecursive.render, WithRecursive.walk_ast,
    push_identifiers_err_cols b _ q.columns e hE, seqRender]

theorem withRecursive_render_err_seed (b : Backend) (q : WithRecursive)
    (e : DieselError) (s1 : RenderState)
    (hc : q.columns.names = [] ∨ q.columns.names.Nodup)
    (h1 : fragOut b q.seed = (s1, some e)) :
    q.render b = .error e := by
  have hseed := walkFrag_shift b q.seed
  simp only [WithRecursive.render, WithRecursive.walk_ast,
    push_identifiers_ok_cols b _ q.columns hc, seqRender, hseed, h1]

theorem withRecursive_render_err_step (b : Backend) (q : WithRecursive)
    (e : DieselError) (o1 s2 : RenderState)
    (hc : q.columns.names = [] ∨ q.columns.names.Nodup)
    (h1 : fragOut b q.seed = (o1, none))
    (h2 : fragOut b q.step = (s2, some e)) :
    q.render b = .error e := by
  have hseed := walkFrag_shift b q.seed
  have hstep := walkFrag_shift b q.step
  simp only [WithRecursive.render, WithRecursive.walk_ast,
    push_identifiers_ok_cols b _ q.columns hc, seqRender, hseed, hstep, h1, h2]

theorem withRecursive_render_err_body (b : Backend) (q : WithRecursive)
    (e : DieselError) (o1 o2 s3 : RenderState)
    (hc : q.columns.names = [] ∨ q.columns.names.Nodup)
    (h1 : fragOut b q.seed = (o1, none))
    (h2 : fragOut b q.step = (o2, none))
    (h3 : fragOut b q.body = (s3, some e)) :
    q.render b = .error e := by
  have hseed := walkFrag_shift b q.seed
  have hstep := walkFrag_shift b q.step
  have hbody := walkFrag_shift b q.body
  simp only [WithRecursive.render, WithRecursive.walk_ast,
    push_identifiers_ok_cols b _ q.columns hc, seqRender, hseed, hstep, hbody, h1, h2, h3]

theorem withCte_render_err_cols (b : Backend) (q : WithCte) (e : DieselError)
    (hE : ensure_unique_columns q.columns.names = .error e) :
    q.render b = .error e := by
  simp only [WithCte.render, WithCte.walk_ast,
    push_identifiers_err_cols b _ q.columns e hE, seqRender]

theorem withCte_render_err_cte (b : Backend) (q : WithCte)
    (e : DieselError) (s1 : RenderState)
    (hc : q.columns.names = [] ∨ q.columns.names.Nodup)
    (h1 : fragOut b q.cte = (s1, some e)) :
    q.render b = .error e := by
  have hcte := walkFrag_shift b q.cte
  simp only [WithCte.render, WithCte.walk_ast,
    push_identifiers_ok_cols b _ q.columns hc, seqRender, hcte, h1]

theorem withCte_render_err_body (b : Backend) (q : WithCte)
    (e : DieselError) (o1 s2 : RenderState)
    (hc : q.columns.names = [] ∨ q.columns.names.Nodup)
    (h1 : fragOut b q.cte = (o1, none))
    (h2 : fragOut b q.body = (s2, some e)) :
    q.render b = .error e := by
  have hcte := walkFrag_shift b q.cte
  have hbody := walkFrag_shift b q.body
  simp only [WithCte.render, WithCte.walk_ast,
    push_identifiers_ok_cols b _ q.columns hc, seqRender, hcte, hbody, h1, h2]

/-! Inversion: a successful render means every stage succeeded. -/

theorem withRecursive_render_ok_inv (b : Backend) (q : WithRecursive)
    (v : String × List Nat) (h : q.render b = .ok v) :
    ∃ o1 o2 o3 : RenderState,
      (q.columns.names = [] ∨ q.columns.names.Nodup) ∧
      fragOut b q.seed = (o1, none) ∧ fragOut b q.step = (o2, none) ∧
      fragOut b q.body = (o3, none) ∧
      v = ("WITH RECURSIVE " ++ b.quoteIdent q.cte_name ++ colClause b q.columns.names ++
            " AS (" ++ o1.sql ++ " UNION ALL " ++ o2.sql ++ ") " ++ o3.sql,
           o1.binds ++ o2.binds ++ o3.binds) := by
  rcases hP : push_identifiers b stEmpty q.columns with ⟨stp, ep⟩
  cases ep with
  | some e =>
      have hE := (push_identifiers_err_inv_cols b _ _ q.columns e hP).1
      rw [withRecursive_render_err_cols b q e hE] at h
      exact Except.noConfusion h
  | none =>
      have hc := (push_identifiers_ok_inv_cols b _ _ q.columns hP).1
      rcases h1 : fragOut b q.seed with ⟨o1, e1⟩
      cases e1 with
      | some e =>
          rw [withRecursive_render_err_seed b q e o1 hc h1] at h
          exact Except.noConfusion h
      | none =>
          rcases h2 : fragOut b q.step with ⟨o2, e2⟩
          cases e2 with
          | some e =>
              rw [withRecursive_render_err_step b q e o1 o2 hc h1 h2] at h
              exact Except.noConfusion h
          | none =>
              rcases h3 : fragOut b q.body with ⟨o3, e3⟩
              cases e3 with
              | some e =>
                  rw [withRecursive_render_err_body b q e o1 o2 o3 hc h1 h2 h3] at h
                  exact Except.noConfusion h
              | none =>
                  rw [withRecursive_render_ok b q o1 o2 o3 hc h1 h2 h3] at h
                  exact ⟨o1, o2, o3, hc, rfl, rfl, rfl, (Except.ok.inj h).symm⟩

theorem withCte_render_ok_inv (b : Backend) (q : WithCte)
    (v : String × List Nat) (h : q.render b = .ok v) :
    ∃ o1 o2 : RenderState,
      (q.columns.names = [] ∨ q.columns.names.Nodup) ∧
      fragOut b q.cte = (o1, none) ∧ fragOut b q.body = (o2, none) ∧
      v = ("WITH " ++ b.quoteIdent q.cte_name ++ colClause b q.columns.names ++
            " AS (" ++ o1.sql ++ ") " ++ o2.sql,
           o1.binds ++ o2.binds) := by
  rcases hP : push_identifiers b stEmpty q.columns with ⟨stp, ep⟩
  cases ep with
  | some e =>
      have hE := (push_identifiers_err_inv_cols b _ _ q.columns e hP).1
      rw [withCte_render_err_cols b q e hE] at h
      exact Except.noConfusion h
  | none =>
      have hc := (push_identifiers_ok_inv_cols b _ _ q.columns hP).1
      rcases h1 : fragOut b q.cte with ⟨o1, e1⟩
      cases e1 with
      | some e =>
          rw [withCte_render_err_cte b q e o1 hc h1] at h
          exact Except.noConfusion h
      | none =>
          rcases h2 : fragOut b q.body with ⟨o2, e2⟩
          cases e2 with
          | some e =>
              rw [withCte_render_err_body b q e o1 o2 hc h1 h2] at h
              exact Except.noConfusion h
          | none =>
              rw [withCte_render_ok b q o1 o2 hc h1 h2] at h
              exact ⟨o1, o2, hc, rfl, rfl, (Except.ok.inj h).symm⟩

/-! Origin of errors. -/

theorem walkFrag_err_mem (b : Backend) (f : Frag) :
    ∀ st st' e, walkFrag b f st = (st', some e) → e ∈ fragErrors f := by
  induction f with
  | sqlText s =>
      intro st st' e h
      simp [walkFrag] at h
  | identText s =>
      intro st st' e h
      simp [walkFrag] at h
  | bindVal v =>
      intro st st' e h
      simp [walkFrag] at h
  | failWith e2 =>
      intro st st' e h
      have : e2 = e := by simpa [walkFrag] using congrArg Prod.snd h
      simp [fragErrors, this]
  | seqFrag f g ihf ihg =>
      intro st st' e h
      rcases hf : walkFrag b f st with ⟨stf, ef⟩
      cases ef with
      | none =>
          have hg : walkFrag b g stf = (st', some e) := by
            simpa [walkFrag, hf] using h
          exact List.mem_append.mpr (Or.inr (ihg stf st' e hg))
      | some e2 =>
          have h2 : e2 = e := by
            have := congrArg Prod.snd h
            simpa [walkFrag, hf] using this
          subst h2
          exact List.mem_append.mpr (Or.inl (ihf st stf e2 hf))

theorem withRecursive_walk_err_origin (b : Backend) (q : WithRecursive)
    (st st' : RenderState) (e : DieselError)
    (h : q.walk_ast b st = (st', some e)) :
    ensure_unique_columns q.columns.names = .error e ∨
      e ∈ fragErrors q.seed ∨ e ∈ fragErrors q.step ∨ e ∈ fragErrors q.body := by
  simp only [WithRecursive.walk_ast] at h
  rcases hP : push_identifiers b (pushIdentifier b (pushSql st "WITH RECURSIVE ") q.cte_name)
      q.columns with ⟨stp, ep⟩
  rw [hP] at h
  cases ep with
  | some e2 =>
      have h2 : e2 = e := by simpa [seqRender] using congrArg Prod.snd h
      subst h2
      exact Or.inl (push_identifiers_err_inv_cols b _ _ q.columns e2 hP).1
  | none =>
      simp only [seqRender] at h
      rcases h1 : walkFrag b q.seed (pushSql stp " AS (") with ⟨s1, e1⟩
      rw [h1] at h
      cases e1 with
      | some e2 =>
          have h2 : e2 = e := by simpa [seqRender] using congrArg Prod.snd h
          subst h2
          exact Or.inr (Or.inl (walkFrag_err_mem b q.seed _ _ e2 h1))
      | none =>
          simp only [seqRender] at h
          rcases h2 : walkFrag b q.step (pushSql s1 " UNION ALL ") with ⟨s2, e2⟩
          rw [h2] at h
          cases e2 with
          | some e3 =>
              have h3 : e3 = e := by simpa [seqRender] using congrArg Prod.snd h
              subst h3
              exact Or.inr (Or.inr (Or.inl (walkFrag_err_mem b q.step _ _ e3 h2)))
          | none =>
              simp only [seqRender] at h
              exact Or.inr (Or.inr (Or.inr (walkFrag_err_mem b q.body _ _ e h)))

theorem withCte_walk_err_origin (b : Backend) (q : WithCte)
    (st st' : RenderState) (e : DieselError)
    (h : q.walk_ast b st = (st', some e)) :
    ensure_unique_columns q.columns.names = .error e ∨
      e ∈ fragErrors q.cte ∨ e ∈ fragErrors q.body := by
  simp only [WithCte.walk_ast] at h
  rcases hP : push_identifiers b (pushIdentifier b (pushSql st "WITH ") q.cte_name)
      q.columns with ⟨stp, ep⟩
  rw [hP] at h
  cases ep with
  | some e2 =>
      have h2 : e2 = e := by simpa [seqRender] using congrArg Prod.snd h
      subst h2
      exact Or.inl (push_identifiers_err_inv_cols b _ _ q.columns e2 hP).1
  | none =>
      simp only [seqRender] at h
      rcases h1 : walkFrag b q.cte (pushSql stp " AS (") with ⟨s1, e1⟩
      rw [h1] at h
      cases e1 with
      | some e2 =>
          have h2 : e2 = e := by simpa [seqRender] using congrArg Prod.snd h
          subst h2
          exact Or.inr (Or.inl (walkFrag_err_mem b q.cte _ _ e2 h1))
      | none =>
          simp only [seqRender] at h
          exact Or.inr (Or.inr (walkFrag_err_mem b q.body _ _ e h))

/-! Concrete examples from the specification. -/

/-- Recursive example of the spec: name nums, column n, seed SELECT 1,
step bounded at 5, body reading the CTE. -/
def numsEntity : WithRecursive :=
  with_recursive .sqlite rfl "nums" ⟨["n"]⟩
    (RecursiveParts.new (.sqlText "SELECT 1")
      (.sqlText "SELECT n + 1 FROM nums WHERE n < 5")
      (.sqlText "SELECT n FROM nums"))

/-- Non-recursive example of the spec: name seed, column value. -/
def seedEntity : WithCte :=
  with_cte .sqlite "seed" ⟨["value"]⟩ (.sqlText "SELECT 42")
    (.sqlText "SELECT value FROM seed")

/-- C1: for every seed, step and body fragment and every distinct non-empty
column list, rendering the recursive CTE emits exactly, in order, the
literal "WITH RECURSIVE ", the quoted name, the parenthesized quoted
column list, " AS (", the seed rendering, " UNION ALL ", the step
rendering, ") " and the body rendering, with the binds collected seed
first, then step, then body; in particular the nums example renders on the
ANSI backend to exactly the expected text. -/
theorem c1_recursive_cte_rendering :
    (∀ (b : Backend) (q : WithRecursive) (o1 o2 o3 : RenderState),
        q.columns.names ≠ [] → q.columns.names.Nodup →
        fragOut b q.seed = (o1, none) → fragOut b q.step = (o2, none) →
        fragOut b q.body = (o3, none) →
        q.render b =
          .ok ("WITH RECURSIVE " ++ b.quoteIdent q.cte_name ++
                (" (" ++ joinQuoted b q.columns.names ++ ")") ++ " AS (" ++
                o1.sql ++ " UNION ALL " ++ o2.sql ++ ") " ++ o3.sql,
               o1.binds ++ o2.binds ++ o3.binds)) ∧
    numsEntity.render ansiBackend =
      .ok ("WITH RECURSIVE \"nums\" (\"n\") AS (SELECT 1 UNION ALL SELECT n + 1 FROM nums WHERE n < 5) SELECT n FROM nums",
           []) := by
  constructor
  · intro b q o1 o2 o3 hne hnd h1 h2 h3
    have hfalse : q.columns.names.isEmpty = false := by
      cases hq : q.columns.names with
      | nil => exact absurd hq hne
      | cons c rest => rfl
    rw [withRecursive_render_ok b q o1 o2 o3 (Or.inr hnd) h1 h2 h3]
    simp [colClause, hfalse, String.append_assoc]
  · rfl

/-- C2: for every definition and body fragment and every distinct non-empty
column list, rendering the non-recursive CTE emits exactly, in order, the
literal "WITH ", the quoted name, the parenthesized quoted column list,
" AS (", the definition rendering, ") " and the body rendering, with the
definition binds collected before the body binds; in particular the seed
example renders on the ANSI backend to exactly the expected text. -/
theorem c2_with_cte_rendering :
    (∀ (b : Backend) (q : WithCte) (o1 o2 : RenderState),
        q.columns.names ≠ [] → q.columns.names.Nodup →
        fragOut b q.cte = (o1, none) → fragOut b q.body = (o2, none) →
        q.render b =
          .ok ("WITH " ++ b.quoteIdent q.cte_name ++
                (" (" ++ joinQuoted b q.columns.names ++ ")") ++ " AS (" ++
                o1.sql ++ ") " ++ o2.sql,
               o1.binds ++ o2.binds)) ∧
    seedEntity.render ansiBackend =
      .ok ("WITH \"seed\" (\"value\") AS (SELECT 42) SELECT value FROM seed", []) := by
  constructor
  · intro b q o1 o2 hne hnd h1 h2
    have hfalse : q.columns.names.isEmpty = false := by
      cases hq : q.columns.names with
      | nil => exact absurd hq hne
      | cons c rest => rfl
    rw [withCte_render_ok b q o1 o2 (Or.inr hnd) h1 h2]
    simp [colClause, hfalse, String.append_assoc]
  · rfl

/-- Witness for C1: the universal statement applied to the nums example. -/
theorem c1_recursive_cte_rendering_witness :
    numsEntity.render ansiBackend =
      .ok ("WITH RECURSIVE \"nums\" (\"n\") AS (SELECT 1 UNION ALL SELECT n + 1 FROM nums WHERE n < 5) SELECT n FROM nums",
           []) := by
  have h := c1_recursive_cte_rendering.1 ansiBackend numsEntity
      ⟨"SELECT 1", []⟩ ⟨"SELECT n + 1 FROM nums WHERE n < 5", []⟩ ⟨"SELECT n FROM nums", []⟩
      (by decide) (by decide) rfl rfl rfl
  exact h.trans rfl

/-- Witness for C2: the universal statement applied to the seed example. -/
theorem c2_with_cte_rendering_witness :
    seedEntity.render ansiBackend =
      .ok ("WITH \"seed\" (\"value\") AS (SELECT 42) SELECT value FROM seed", []) := by
  have h := c2_with_cte_rendering.1 ansiBackend seedEntity
      ⟨"SELECT 42", []⟩ ⟨"SELECT value FROM seed", []⟩
      (by decide) (by decide) rfl rfl
  exact h.trans rfl

/-- C3: for every column list with a repeated name (exact string equality),
rendering fails with the duplicate-column error naming the first name, in
left-to-right scan order, that equals some earlier name — the decomposition
pre ++ d :: post with pre duplicate-free and d already in pre pins that
name — and the scan stops there: whatever follows the first duplicate, the
same error is produced. -/
theorem c3_duplicate_column_rejection :
    ∀ cols : List String, ¬ cols.Nodup →
      ∃ pre d post, cols = pre ++ d :: post ∧ pre.Nodup ∧ d ∈ pre ∧
        ensure_unique_columns cols = .error (dupColError d) ∧
        (∀ post2, ensure_unique_columns (pre ++ d :: post2) = .error (dupColError d)) ∧
        (∀ (b : Backend) (q : WithRecursive), q.columns.names = cols →
            q.render b = .error (dupColError d)) ∧
        (∀ (b : Backend) (q : WithCte), q.columns.names = cols →
            q.render b = .error (dupColError d)) := by
  intro cols hnd
  cases hE : ensure_unique_columns cols with
  | ok u =>
      cases u
      exact absurd ((ensure_unique_columns_ok_iff cols).mp hE) hnd
  | error e =>
      obtain ⟨pre, d, post, hsplit, hprend, _, hdmem, he⟩ :=
        ensureUniqueGo_err cols [] e hE
      have hdpre : d ∈ pre := by
        rcases hdmem with hs | hp
        · simp at hs
        · exact hp
      subst he
      have hstop : ∀ post2, ensure_unique_columns (pre ++ d :: post2) =
          .error (dupColError d) := by
        intro post2
        exact ensureUniqueGo_err_of pre [] d post2 hprend (by simp) (Or.inr hdpre)
      refine ⟨pre, d, post, hsplit, hprend, hdpre, rfl, hstop, ?_, ?_⟩
      · intro b q hq
        apply withRecursive_render_err_cols
        rw [hq, hsplit]
        exact hstop post
      · intro b q hq
        apply withCte_render_err_cols
        rw [hq, hsplit]
        exact hstop post

/-- Witness for C3: the list with id repeated. -/
theorem c3_duplicate_column_rejection_witness :
    ∃ pre d post, ["id", "id"] = pre ++ d :: post ∧ pre.Nodup ∧ d ∈ pre ∧
      ensure_unique_columns ["id", "id"] = .error (dupColError d) ∧
      (∀ post2, ensure_unique_columns (pre ++ d :: post2) = .error (dupColError d)) ∧
      (∀ (b : Backend) (q : WithRecursive), q.columns.names = ["id", "id"] →
          q.render b = .error (dupColError d)) ∧
      (∀ (b : Backend) (q : WithCte), q.columns.names = ["id", "id"] →
          q.render b = .error (dupColError d)) :=
  c3_duplicate_column_rejection ["id", "id"] (by decide)

/-- C4: for a distinct column list, the clause emitted is exactly a space,
an opening parenthesis, the names in input order each through the backend
quoting rule separated by comma-space, and a closing parenthesis; for an
empty list the clause contributes no output text at all. -/
theorem c4_column_clause :
    ∀ (b : Backend) (st : RenderState) (cols : Columns),
      (cols.names = [] → push_identifiers b st cols = (st, none)) ∧
      (cols.names ≠ [] → cols.names.Nodup →
        push_identifiers b st cols =
          (pushSql st (" (" ++ joinQuoted b cols.names ++ ")"), none)) := by
  intro b st cols
  constructor
  · intro hnil
    have h := push_identifiers_ok_cols b st cols (Or.inl hnil)
    rw [h, hnil]
    simp [colClause, pushSql_empty]
  · intro hne hnd
    have hfalse : cols.names.isEmpty = false := by
      cases hq : cols.names with
      | nil => exact absurd hq hne
      | cons c rest => rfl
    rw [push_identifiers_ok_cols b st cols (Or.inr hnd)]
    simp [colClause, hfalse]

/-- Witness for C4: the empty list and the two-name list a, b on the ANSI
backend. -/
theorem c4_column_clause_witness :
    push_identifiers ansiBackend stEmpty ⟨[]⟩ = (stEmpty, none) ∧
    push_identifiers ansiBackend stEmpty ⟨["a", "b"]⟩ =
      (pushSql stEmpty (" (" ++ joinQuoted ansiBackend ["a", "b"] ++ ")"), none) :=
  ⟨(c4_column_clause ansiBackend stEmpty ⟨[]⟩).1 rfl,
   (c4_column_clause ansiBackend stEmpty ⟨["a", "b"]⟩).2 (by decide) (by decide)⟩

/-- C5: a failed render never hands the caller partial SQL text: the render
call either fails carrying only the error, or succeeds with the complete
statement — every stage, in particular every embedded fragment, having
succeeded and contributed its full rendering. -/
theorem c5_no_partial_sql :
    (∀ (b : Backend) (q : WithRecursive),
        (∃ e, q.render b = .error e) ∨
        (∃ o1 o2 o3 : RenderState,
          (q.columns.names = [] ∨ q.columns.names.Nodup) ∧
          fragOut b q.seed = (o1, none) ∧ fragOut b q.step = (o2, none) ∧
          fragOut b q.body = (o3, none) ∧
          q.render b =
            .ok ("WITH RECURSIVE " ++ b.quoteIdent q.cte_name ++
                  colClause b q.columns.names ++ " AS (" ++ o1.sql ++
                  " UNION ALL " ++ o2.sql ++ ") " ++ o3.sql,
                 o1.binds ++ o2.binds ++ o3.binds))) ∧
    (∀ (b : Backend) (q : WithCte),
        (∃ e, q.render b = .error e) ∨
        (∃ o1 o2 : RenderState,
          (q.columns.names = [] ∨ q.columns.names.Nodup) ∧
          fragOut b q.cte = (o1, none) ∧ fragOut b q.body = (o2, none) ∧
          q.render b =
            .ok ("WITH " ++ b.quoteIdent q.cte_name ++ colClause b q.columns.names ++
                  " AS (" ++ o1.sql ++ ") " ++ o2.sql,
                 o1.binds ++ o2.binds))) := by
  constructor
  · intro b q
    cases hr : q.render b with
    | error e => exact Or.inl ⟨e, rfl⟩
    | ok v =>
        obtain ⟨o1, o2, o3, hc, h1, h2, h3, hv⟩ := withRecursive_render_ok_inv b q v hr
        exact Or.inr ⟨o1, o2, o3, hc, h1, h2, h3, by rw [hv]⟩
  · intro b q
    cases hr : q.render b with
    | error e => exact Or.inl ⟨e, rfl⟩
    | ok v =>
        obtain ⟨o1, o2, hc, h1, h2, hv⟩ := withCte_render_ok_inv b q v hr
        exact Or.inr ⟨o1, o2, hc, h1, h2, by rw [hv]⟩

/-- C6: wrapping a fragment in the fragment wrapper and rendering is
byte-for-byte the same as rendering the fragment directly — the same walk
over any buffer, the same render result, the same static-identity flag and
the same query-identity type. -/
theorem c6_wrapper_transparent :
    (∀ (b : Backend) (f : Frag) (st : RenderState),
        QueryPart.walk_ast b (QueryPart.new f) st = walkFrag b f st) ∧
    (∀ (b : Backend) (f : Frag),
        QueryPart.render b (QueryPart.new f) = Frag.render b f) ∧
    (∀ h : Bool, QueryPart.hasStaticQueryId h = h) ∧
    (∀ (t : String) (f : Frag), QueryPart.queryIdTy t (QueryPart.new f) = t) :=
  ⟨fun _ _ _ => rfl, fun _ _ => rfl, fun _ => rfl, fun _ _ => rfl⟩

/-- C7: an error produced by an embedded fragment — seed, step, definition
or body — is returned from the composed render identically, with no
wrapping or translation, provided the earlier stages did not already
fail. -/
theorem c7_fragment_error_propagation :
    (∀ (b : Backend) (q : WithRecursive) (e : DieselError),
        (q.columns.names = [] ∨ q.columns.names.Nodup) →
        ((∃ s, fragOut b q.seed = (s, some e)) ∨
         (∃ o1 s, fragOut b q.seed = (o1, none) ∧ fragOut b q.step = (s, some e)) ∨
         (∃ o1 o2 s, fragOut b q.seed = (o1, none) ∧ fragOut b q.step = (o2, none) ∧
            fragOut b q.body = (s, some e))) →
        q.render b = .error e) ∧
    (∀ (b : Backend) (q : WithCte) (e : DieselError),
        (q.columns.names = [] ∨ q.columns.names.Nodup) →
        ((∃ s, fragOut b q.cte = (s, some e)) ∨
         (∃ o1 s, fragOut b q.cte = (o1, none) ∧ fragOut b q.body = (s, some e))) →
        q.render b = .error e) := by
  constructor
  · intro b q e hc hcase
    rcases hcase with ⟨s, hs⟩ | ⟨o1, s, h1, hs⟩ | ⟨o1, o2, s, h1, h2, hs⟩
    · exact withRecursive_render_err_seed b q e s hc hs
    · exact withRecursive_render_err_step b q e o1 s hc h1 hs
    · exact withRecursive_render_err_body b q e o1 o2 s hc h1 h2 hs
  · intro b q e hc hcase
    rcases hcase with ⟨s, hs⟩ | ⟨o1, s, h1, hs⟩
    · exact withCte_render_err_cte b q e s hc hs
    · exact withCte_render_err_body b q e o1 s hc h1 hs

/-- Witness for C7: a seed failing with a database error surfaces that very
error from the recursive render. -/
theorem c7_fragment_error_propagation_witness :
    WithRecursive.render ansiBackend
        { cte_name := "t", columns := ⟨["n"]⟩,
          seed := .failWith (.databaseError "boom"),
          step := .sqlText "SELECT 1", body := .sqlText "SELECT 1" } =
      .error (.databaseError "boom") :=
  c7_fragment_error_propagation.1 ansiBackend
    { cte_name := "t", columns := ⟨["n"]⟩,
      seed := .failWith (.databaseError "boom"),
      step := .sqlText "SELECT 1", body := .sqlText "SELECT 1" }
    (.databaseError "boom") (Or.inr (by decide))
    (Or.inl ⟨stEmpty, rfl⟩)

/-- C8: the capability registry is the closed set containing exactly SQLite
and PostgreSQL; the recursive builder exists only under a proof of
membership (the compile-time bound of the source); and no runtime walk of
a recursive entity ever produces a backend-incapable failure — every error
it can return is the duplicate-column error of its own column check or an
error carried by one of the embedded fragments. -/
theorem c8_compile_time_capability_gating :
    (∀ db : BackendTy, RecursiveBackend db = true ↔ (db = .sqlite ∨ db = .pg)) ∧
    (∀ (db : BackendTy) (h : RecursiveBackend db = true) (name : String)
        (cols : Columns) (parts : RecursiveParts),
        with_recursive db h name cols parts =
          { cte_name := name, columns := cols, seed := parts.seed,
            step := parts.step, body := parts.body }) ∧
    (∀ (b : Backend) (q : WithRecursive) (st st' : RenderState) (e : DieselError),
        q.walk_ast b st = (st', some e) →
        ensure_unique_columns q.columns.names = .error e ∨
          e ∈ fragErrors q.seed ∨ e ∈ fragErrors q.step ∨ e ∈ fragErrors q.body) := by
  refine ⟨?_, ?_, ?_⟩
  · intro db
    cases db <;> simp [RecursiveBackend]
  · intro db h name cols parts
    rfl
  · intro b q st st' e h
    exact withRecursive_walk_err_origin b q st st' e h

/-- Witness for C8: SQLite is a member, and a concrete failing walk whose
error is traced to its seed fragment. -/
theorem c8_compile_time_capability_gating_witness :
    RecursiveBackend .sqlite = true ∧
    (ensure_unique_columns ([] : List String) = .error DieselError.notFound ∨
      DieselError.notFound ∈ fragErrors (Frag.failWith DieselError.notFound) ∨
      DieselError.notFound ∈ fragErrors (Frag.sqlText "SELECT 1") ∨
      DieselError.notFound ∈ fragErrors (Frag.sqlText "SELECT 2")) :=
  ⟨(c8_compile_time_capability_gating.1 .sqlite).mpr (Or.inl rfl),
   c8_compile_time_capability_gating.2.2 ansiBackend
     { cte_name := "t", columns := ⟨[]⟩,
       seed := .failWith DieselError.notFound,
       step := .sqlText "SELECT 1", body := .sqlText "SELECT 2" }
     stEmpty ⟨"WITH RECURSIVE \"t\" AS (", []⟩ DieselError.notFound rfl⟩

/-- C9: the composed output schema is the body schema for both entities,
whatever the other fragment schemas are. -/
theorem c9_schema_equals_body_schema :
    (∀ s p t : SqlTy, WithRecursive.sqlType s p t = t) ∧
    (∀ c t : SqlTy, WithCte.sqlType c t = t) ∧
    (∀ s1 p1 s2 p2 t : SqlTy,
        WithRecursive.sqlType s1 p1 t = WithRecursive.sqlType s2 p2 t) ∧
    (∀ c1 c2 t : SqlTy, WithCte.sqlType c1 t = WithCte.sqlType c2 t) :=
  ⟨fun _ _ _ => rfl, fun _ _ => rfl, fun _ _ _ _ _ => rfl, fun _ _ _ => rfl⟩

/-- C10: both composed entities report a static query identity
unconditionally — the flag is true whatever the flags of the embedded
fragments — and the cache identity, being the type itself, is the same for
any two values built from different fragments. -/
theorem c10_unconditional_static_query_id :
    (∀ a b c : Bool, WithRecursive.hasStaticQueryId a b c = true) ∧
    (∀ a b : Bool, WithCte.hasStaticQueryId a b = true) ∧
    (∀ (t : String) (q1 q2 : WithRecursive),
        WithRecursive.queryIdTy t q1 = WithRecursive.queryIdTy t q2) ∧
    (∀ (t : String) (q1 q2 : WithCte),
        WithCte.queryIdTy t q1 = WithCte.queryIdTy t q2) :=
  ⟨fun _ _ _ => rfl, fun _ _ => rfl, fun _ _ _ => rfl, fun _ _ _ => rfl⟩
